import Mathlib

/-!
Shallow embedding of the hand-gesture-control repository
(`hand_detector.py`, `gesture_recognition.py`, `virtual_mouse.py`,
`volume_control.py`, `virtual_painter.py`) and proofs checking the
natural-language specification against it.

Conventions of the embedding:
* Pixel coordinates are `Int` (the Python code stores `int(landmark.x * w)`).
* Times, interpolated values and smoothing-window contents are `ℚ`
  (the Python code uses floats; all arithmetic involved is exact on the
  rationals).
* Python `int(x)` (truncation toward zero) is `ratTrunc`.
* A Python expression that raises (out-of-range list indexing) is
  modelled by `Option`: `none` is the raised `IndexError`.
* Euclidean distances are compared against thresholds in squared form:
  for nonnegative reals, `sqrt (dx^2+dy^2) < t  ↔  dx^2+dy^2 < t^2`,
  so `distance < 40` in the source becomes `distSq < 1600` here.
-/

namespace HandGesture

/-- One hand landmark, as stored by `HandDetector.find_position`:
the Python list `[id, cx, cy]`. -/
structure LPoint where
  id : Nat
  x : Int
  y : Int
deriving DecidableEq, Repr, Inhabited

/-- Python `int(q)` on a float: truncation toward zero. -/
def ratTrunc (q : ℚ) : Int :=
  if 0 ≤ q then ⌊q⌋ else ⌈q⌉

/-- `HandDetector.fingers_up` (hand_detector.py, lines 92-125).

The source returns `[]` for an empty landmark list; otherwise it reads
`landmark_list[4][1]`, `landmark_list[3][1]` for the thumb and, for
`tip_id in [8, 12, 16, 20]`, `landmark_list[tip_id][2]` and
`landmark_list[tip_id - 2][2]`.  Each index access is modelled with
`List.get?`; an out-of-range access (Python `IndexError`) makes the
whole call `none`. -/
def fingersUp (lm : List LPoint) : Option (List Nat) :=
  if lm.length = 0 then some []
  else
    (lm.get? 4).bind fun p4 =>
    (lm.get? 3).bind fun p3 =>
    (lm.get? 8).bind fun p8 =>
    (lm.get? 6).bind fun p6 =>
    (lm.get? 12).bind fun p12 =>
    (lm.get? 10).bind fun p10 =>
    (lm.get? 16).bind fun p16 =>
    (lm.get? 14).bind fun p14 =>
    (lm.get? 20).bind fun p20 =>
    (lm.get? 18).bind fun p18 =>
    some [ if p4.x < p3.x then 1 else 0,
           if p8.y < p6.y then 1 else 0,
           if p12.y < p10.y then 1 else 0,
           if p16.y < p14.y then 1 else 0,
           if p20.y < p18.y then 1 else 0 ]

/-- Squared Euclidean distance between two landmark points
(`GestureRecognizer._calculate_distance`, squared). -/
def calculateDistanceSq (p q : LPoint) : Int :=
  (p.x - q.x) ^ 2 + (p.y - q.y) ^ 2

/-- `GestureRecognizer.recognize_gesture` (gesture_recognition.py,
lines 15-86).  The ordered rule chain, first match wins; rules that can
fall through in the source (Thumbs Down's inner `if`, OK Sign's distance
check) are folded into their guard so that control continues to the next
rule exactly as in the source.  The accesses `landmark_list[4]`,
`landmark_list[3]`, `landmark_list[8]` made inside the branches are
bound up front; this is equivalent because they succeed whenever
`fingers_up` has succeeded on a non-empty list (the source would have
raised inside `fingers_up` first otherwise). -/
def recognizeGesture (lm : List LPoint) : Option String :=
  if lm.length = 0 then some "No Hand"
  else
    match fingersUp lm with
    | some [thumb, index, middle, ring, pinky] =>
      match lm.get? 4, lm.get? 3, lm.get? 8 with
      | some p4, some p3, some p8 =>
        let total := List.count 1 [thumb, index, middle, ring, pinky]
        some (
          if index ≠ 0 ∧ middle ≠ 0 ∧ ring = 0 ∧ pinky = 0 ∧ thumb = 0 then "Peace Sign"
          else if thumb ≠ 0 ∧ index = 0 ∧ middle = 0 ∧ ring = 0 ∧ pinky = 0 then "Thumbs Up"
          else if thumb = 0 ∧ index = 0 ∧ middle = 0 ∧ ring = 0 ∧ pinky = 0 ∧ p3.y < p4.y then
            "Thumbs Down"
          else if thumb ≠ 0 ∧ index ≠ 0 ∧ calculateDistanceSq p4 p8 < 1600 then "OK Sign"
          else if index ≠ 0 ∧ pinky ≠ 0 ∧ middle = 0 ∧ ring = 0 then "Rock Sign"
          else if total = 0 then "Fist"
          else if total = 5 then "Open Palm"
          else if index ≠ 0 ∧ middle = 0 ∧ ring = 0 ∧ pinky = 0 ∧ thumb = 0 then "Pointing"
          else if index ≠ 0 ∧ middle ≠ 0 ∧ ring ≠ 0 ∧ pinky = 0 ∧ thumb = 0 then "Three Fingers"
          else if index ≠ 0 ∧ middle ≠ 0 ∧ ring ≠ 0 ∧ pinky ≠ 0 ∧ thumb = 0 then "Four Fingers"
          else if thumb ≠ 0 ∧ pinky ≠ 0 ∧ index = 0 ∧ middle = 0 ∧ ring = 0 then "Call Me"
          else if thumb ≠ 0 ∧ index ≠ 0 ∧ middle = 0 ∧ ring = 0 ∧ pinky = 0 then "Finger Gun"
          else toString total ++ " Fingers Up")
      | _, _, _ => none
    | _ => none

example : fingersUp [] = some [] := rfl
example : fingersUp [⟨0, 5, 5⟩] = none := rfl
example : recognizeGesture [] = some "No Hand" := rfl
example : recognizeGesture [⟨0, 5, 5⟩] = none := rfl

/-- A full 21-point hand with every finger up (used in tests below);
coordinates are spread out so the thumb-index distance is ≥ 40px. -/
def allUpHand : List LPoint :=
  (List.range 21).map fun i => ⟨i, -10 * (i : Int), -10 * (i : Int)⟩

example : fingersUp allUpHand = some [1, 1, 1, 1, 1] := by decide
example : recognizeGesture allUpHand = some "Open Palm" := by decide

/-- A list shorter than 21 entries (but non-empty) makes `fingers_up`
index out of range: the call raises, modelled as `none`. -/
lemma fingersUp_short (lm : List LPoint) (h1 : lm.length ≠ 0) (h2 : lm.length < 21) :
    fingersUp lm = none := by
  have h20 : lm.get? 20 = none := List.get?_eq_none.mpr (by omega)
  unfold fingersUp
  rw [if_neg h1]
  rcases h4 : lm.get? 4 with _ | p4; · rfl
  rcases h3 : lm.get? 3 with _ | p3; · rfl
  rcases h8 : lm.get? 8 with _ | p8; · rfl
  rcases h6 : lm.get? 6 with _ | p6; · rfl
  rcases h12 : lm.get? 12 with _ | p12; · rfl
  rcases h10 : lm.get? 10 with _ | p10; · rfl
  rcases h16 : lm.get? 16 with _ | p16; · rfl
  rcases h14 : lm.get? 14 with _ | p14; · rfl
  rw [h20]
  rfl

/-- On a list of at least 21 entries every access in `fingers_up`
succeeds and a list of exactly five flags is produced. -/
lemma fingersUp_long (lm : List LPoint) (h : 21 ≤ lm.length) :
    ∃ a b c d e : Nat, fingersUp lm = some [a, b, c, d, e] := by
  have h4 := List.get?_eq_get (l := lm) (n := 4) (by omega)
  have h3 := List.get?_eq_get (l := lm) (n := 3) (by omega)
  have h8 := List.get?_eq_get (l := lm) (n := 8) (by omega)
  have h6 := List.get?_eq_get (l := lm) (n := 6) (by omega)
  have h12 := List.get?_eq_get (l := lm) (n := 12) (by omega)
  have h10 := List.get?_eq_get (l := lm) (n := 10) (by omega)
  have h16 := List.get?_eq_get (l := lm) (n := 16) (by omega)
  have h14 := List.get?_eq_get (l := lm) (n := 14) (by omega)
  have h20 := List.get?_eq_get (l := lm) (n := 20) (by omega)
  have h18 := List.get?_eq_get (l := lm) (n := 18) (by omega)
  have key : fingersUp lm =
      some [ if (lm.get ⟨4, by omega⟩).x < (lm.get ⟨3, by omega⟩).x then 1 else 0,
             if (lm.get ⟨8, by omega⟩).y < (lm.get ⟨6, by omega⟩).y then 1 else 0,
             if (lm.get ⟨12, by omega⟩).y < (lm.get ⟨10, by omega⟩).y then 1 else 0,
             if (lm.get ⟨16, by omega⟩).y < (lm.get ⟨14, by omega⟩).y then 1 else 0,
             if (lm.get ⟨20, by omega⟩).y < (lm.get ⟨18, by omega⟩).y then 1 else 0 ] := by
    unfold fingersUp
    rw [if_neg (by omega), h4, h3, h8, h6, h12, h10, h16, h14, h20, h18]
    rfl
  exact ⟨_, _, _, _, _, key⟩

/-- **C1, counterexample.** A `LandmarkSet` of length 1 (≠ 0 and ≠ 21) is
*not* treated as an empty set: `fingers_up` and `recognize_gesture` raise
an `IndexError` (modelled `none`) instead of returning the empty
`FingerState` / `"No Hand"`. -/
theorem spec_C1_counterexample :
    fingersUp [⟨0, 5, 5⟩] = none ∧ fingersUp [] = some [] ∧
    recognizeGesture [⟨0, 5, 5⟩] = none ∧ recognizeGesture [] = some "No Hand" ∧
    fingersUp [⟨0, 5, 5⟩] ≠ fingersUp [] ∧
    recognizeGesture [⟨0, 5, 5⟩] ≠ recognizeGesture [] := by
  refine ⟨rfl, rfl, rfl, rfl, by decide, by decide⟩

/-- **C1, amended.** Only an empty `LandmarkSet` is treated as "no hand"
(empty `FingerState`, label `"No Hand"`).  A set of length 1–20 makes
`FingerStateExtractor` and `GestureClassifier` perform an out-of-range
landmark access (an uncaught `IndexError`, modelled `none`), and a set of
length ≥ 21 is processed like a full hand; neither is treated as empty. -/
theorem spec_C1_amended : ∀ lm : List LPoint,
    (lm.length = 0 → fingersUp lm = some [] ∧ recognizeGesture lm = some "No Hand") ∧
    (lm.length ≠ 0 → lm.length < 21 → fingersUp lm = none ∧ recognizeGesture lm = none) ∧
    (21 ≤ lm.length → (fingersUp lm).isSome ∧ (recognizeGesture lm).isSome) := by
  intro lm
  refine ⟨?_, ?_, ?_⟩
  · intro h0
    rw [List.length_eq_zero] at h0
    subst h0
    exact ⟨rfl, rfl⟩
  · intro h1 h2
    refine ⟨fingersUp_short lm h1 h2, ?_⟩
    unfold recognizeGesture
    rw [if_neg h1, fingersUp_short lm h1 h2]
  · intro h
    obtain ⟨a, b, c, d, e, hf⟩ := fingersUp_long lm h
    have h4 := List.get?_eq_get (l := lm) (n := 4) (by omega)
    have h3 := List.get?_eq_get (l := lm) (n := 3) (by omega)
    have h8 := List.get?_eq_get (l := lm) (n := 8) (by omega)
    constructor
    · rw [hf]; rfl
    · unfold recognizeGesture
      rw [if_neg (by omega), hf, h4, h3, h8]
      rfl

/-- **C1, witness.**  The amended theorem applied at concrete inputs:
the empty set, a length-1 set and the 21-point `allUpHand`. -/
theorem spec_C1_witness :
    fingersUp ([] : List LPoint) = some [] ∧ fingersUp [⟨0, 5, 5⟩] = none ∧
    (fingersUp allUpHand).isSome := by
  refine ⟨((spec_C1_amended []).1 rfl).1,
         ((spec_C1_amended [⟨0, 5, 5⟩]).2.1 (by decide) (by decide)).1,
         ((spec_C1_amended allUpHand).2.2 (by decide)).1⟩

/-! ## Temporal smoothing (`smooth_gesture`, `smooth_volume`) -/

/-- The push step shared by both smoothing windows
(gesture_recognition.py lines 102-106, volume_control.py lines 156-160):
append the new value, then `pop(0)` once the length exceeds the
capacity (`history_length`). -/
def pushWindow (cap : Nat) (h : List α) (v : α) : List α :=
  if cap < (h ++ [v]).length then (h ++ [v]).tail else h ++ [v]

/-- Python `max` over an iterable with the window's `count` as the key:
it scans left to right keeping the current best and replaces it only on
a strictly greater key, so the first maximiser in iteration order wins.
`none` for an empty iterable. -/
def maxByCount (h : List String) : List String → Option String
  | [] => none
  | x :: xs => some (xs.foldl (fun best y => if h.count best < h.count y then y else best) x)

/-- `GestureRecognizer.smooth_gesture` (gesture_recognition.py, lines
92-112).  The source computes `max` over `set(self.gesture_history)`;
a CPython `set` of strings enumerates each distinct element once, in an
order that is not specified (string hashing is randomised per process),
so the enumeration order is a parameter here, constrained by
`ValidSetOrder` below.  The `none` fallback (empty history) is
unreachable because the window was just appended to. -/
def smoothGesture (setOrder : List String) (h : List String) (current : String) :
    List String × String :=
  match maxByCount (pushWindow 5 h current) setOrder with
  | some g => (pushWindow 5 h current, g)
  | none => (pushWindow 5 h current, current)

/-- An enumeration order a Python `set` built from `h` may present:
exactly the distinct elements of `h`, in any order. -/
abbrev ValidSetOrder (setOrder h : List String) : Prop :=
  setOrder.Perm h.dedup

/-- First occurrence of each value of the list, in list order. -/
def firstOccurrences : List String → List String
  | [] => []
  | x :: xs => x :: (firstOccurrences xs).filter (fun y => y ≠ x)

/-- The reduction the spec describes for discrete labels: most frequent
value, ties broken by the earliest first-occurrence index in the window
(scanning first occurrences in window order and keeping the first
maximiser gives exactly that value). -/
def specModeSmooth (h : List String) : Option String :=
  maxByCount h (firstOccurrences h)

/-- `VolumeController.smooth_volume` (volume_control.py, lines 146-166):
push into the capacity-8 window, return `int(np.mean(window))`.  The
`len == 0` fallback of the source is unreachable (the window was just
appended to), so the mean is always taken of a non-empty window. -/
def smoothVolume (h : List ℚ) (v : ℚ) : List ℚ × Int :=
  (pushWindow 8 h v,
   ratTrunc ((pushWindow 8 h v).sum / ((pushWindow 8 h v).length : ℚ)))

/-- A fresh volume smoother fed the given inputs in order
(`volume_history` starts empty). -/
def runSmoothVolume (inputs : List ℚ) : List ℚ × Int :=
  inputs.foldl (fun acc v => smoothVolume acc.1 v) ([], 0)

/-- The result of the `max`-with-count fold is an element of the scanned
list and its count is maximal among the scanned elements. -/
lemma foldl_maxByCount (h : List String) :
    ∀ (xs : List String) (x : String),
      xs.foldl (fun best y => if h.count best < h.count y then y else best) x ∈ x :: xs ∧
      ∀ y ∈ x :: xs,
        h.count y ≤
          h.count (xs.foldl (fun best y => if h.count best < h.count y then y else best) x)
  | [], x => by
      refine ⟨List.mem_cons_self x [], ?_⟩
      intro y hy
      rcases List.mem_cons.mp hy with rfl | hy2
      · exact le_refl _
      · exact absurd hy2 (List.not_mem_nil y)
  | z :: zs, x => by
      obtain ⟨hmem, hbound⟩ := foldl_maxByCount h zs (if h.count x < h.count z then z else x)
      simp only [List.foldl_cons]
      refine ⟨?_, ?_⟩
      · by_cases hc : h.count x < h.count z
        · rw [if_pos hc] at hmem ⊢
          rcases List.mem_cons.mp hmem with he | hm
          · rw [he]; exact List.mem_cons_of_mem _ (List.mem_cons_self _ _)
          · exact List.mem_cons_of_mem _ (List.mem_cons_of_mem _ hm)
        · rw [if_neg hc] at hmem ⊢
          rcases List.mem_cons.mp hmem with he | hm
          · rw [he]; exact List.mem_cons_self _ _
          · exact List.mem_cons_of_mem _ (List.mem_cons_of_mem _ hm)
      · intro y hy
        rcases List.mem_cons.mp hy with rfl | hy2
        · refine le_trans ?_ (hbound _ (List.mem_cons_self _ _))
          by_cases hc : h.count y < h.count z
          · rw [if_pos hc]; exact le_of_lt hc
          · rw [if_neg hc]
        · rcases List.mem_cons.mp hy2 with rfl | hy3
          · refine le_trans ?_ (hbound _ (List.mem_cons_self _ _))
            by_cases hc : h.count x < h.count y
            · rw [if_pos hc]
            · rw [if_neg hc]; exact Nat.le_of_not_lt hc
          · exact hbound y (List.mem_cons_of_mem _ hy3)

/-- On a non-empty iteration order, `max` returns an element of maximal
count. -/
lemma maxByCount_eq_some (h : List String) :
    ∀ order : List String, order ≠ [] →
      ∃ g, maxByCount h order = some g ∧ g ∈ order ∧ ∀ y ∈ order, h.count y ≤ h.count g
  | [], hne => absurd rfl hne
  | x :: xs, _ => by
      obtain ⟨hm, hb⟩ := foldl_maxByCount h xs x
      exact ⟨_, rfl, hm, hb⟩

lemma pushWindow_ne_nil (cap : Nat) (h : List α) (v : α) (hcap : 1 ≤ cap) :
    pushWindow cap h v ≠ [] := by
  unfold pushWindow
  split
  · have hlen : ((h ++ [v]).tail).length = h.length := by
      simp [List.length_tail]
    have : 1 ≤ h.length := by
      simp only [List.length_append, List.length_cons, List.length_nil] at *
      omega
    intro hnil
    rw [hnil] at hlen
    simp at hlen
    omega
  · simp

lemma dedup_ne_nil_of_ne_nil (h : List String) (hne : h ≠ []) : h.dedup ≠ [] := by
  rcases h with _ | ⟨x, xs⟩
  · exact absurd rfl hne
  · exact List.ne_nil_of_mem (List.mem_dedup.mpr (List.mem_cons_self x xs))

/-- The smoothed gesture is an element of maximal count of the current
window, for any enumeration order of the window's distinct elements. -/
lemma smoothGesture_spec (setOrder h : List String) (current : String)
    (hv : ValidSetOrder setOrder (pushWindow 5 h current)) :
    (smoothGesture setOrder h current).1 = pushWindow 5 h current ∧
    (smoothGesture setOrder h current).2 ∈ pushWindow 5 h current ∧
    ∀ y ∈ pushWindow 5 h current,
      (pushWindow 5 h current).count y ≤
        (pushWindow 5 h current).count (smoothGesture setOrder h current).2 := by
  have hne : pushWindow 5 h current ≠ [] :=
    pushWindow_ne_nil 5 h current (by norm_num)
  have hone : setOrder ≠ [] := by
    intro h0
    subst h0
    exact dedup_ne_nil_of_ne_nil _ hne (List.Perm.nil_eq hv).symm
  obtain ⟨g, hg, hmem, hbound⟩ := maxByCount_eq_some (pushWindow 5 h current) setOrder hone
  have hres : smoothGesture setOrder h current = (pushWindow 5 h current, g) := by
    unfold smoothGesture
    rw [hg]
  rw [hres]
  refine ⟨rfl, ?_, ?_⟩
  · exact List.mem_dedup.mp (hv.mem_iff.mp hmem)
  · intro y hy
    exact hbound y (hv.mem_iff.mpr (List.mem_dedup.mpr hy))

lemma list_sum_le_length_mul (w : List ℚ) (hi : ℚ) (hb : ∀ y ∈ w, y ≤ hi) :
    w.sum ≤ (w.length : ℚ) * hi := by
  induction w with
  | nil => simp
  | cons a l ih =>
    have ha : a ≤ hi := hb a (List.mem_cons_self _ _)
    have hl := ih fun y hy => hb y (List.mem_cons_of_mem _ hy)
    simp only [List.sum_cons, List.length_cons]
    push_cast
    linarith

lemma length_mul_le_list_sum (w : List ℚ) (lo : ℚ) (hb : ∀ y ∈ w, lo ≤ y) :
    (w.length : ℚ) * lo ≤ w.sum := by
  induction w with
  | nil => simp
  | cons a l ih =>
    have ha : lo ≤ a := hb a (List.mem_cons_self _ _)
    have hl := ih fun y hy => hb y (List.mem_cons_of_mem _ hy)
    simp only [List.sum_cons, List.length_cons]
    push_cast
    linarith

lemma ratTrunc_bounds (q : ℚ) :
    q - 1 < (ratTrunc q : ℚ) ∧ (ratTrunc q : ℚ) < q + 1 := by
  unfold ratTrunc
  split
  · exact ⟨Int.sub_one_lt_floor q, lt_of_le_of_lt (Int.floor_le q) (by linarith)⟩
  · exact ⟨lt_of_lt_of_le (by linarith) (Int.le_ceil q), Int.ceil_lt_add_one q⟩

/-- **C3, counterexample.** With window contents `["Fist", "Open Palm"]`
(a tie, one occurrence each) the output of `smooth_gesture` depends on
the set enumeration order: the legitimate order
`["Open Palm", "Fist"]` yields `"Open Palm"`, while the tie-break the
spec claims (earliest first occurrence) yields `"Fist"`.  The tie-break
is therefore neither the earliest-first-occurrence one nor
deterministic. -/
theorem spec_C3_counterexample :
    ValidSetOrder ["Open Palm", "Fist"] (pushWindow 5 ["Fist"] "Open Palm") ∧
    smoothGesture ["Open Palm", "Fist"] ["Fist"] "Open Palm" =
      (["Fist", "Open Palm"], "Open Palm") ∧
    ValidSetOrder ["Fist", "Open Palm"] (pushWindow 5 ["Fist"] "Open Palm") ∧
    smoothGesture ["Fist", "Open Palm"] ["Fist"] "Open Palm" =
      (["Fist", "Open Palm"], "Fist") ∧
    specModeSmooth ["Fist", "Open Palm"] = some "Fist" ∧
    ("Open Palm" : String) ≠ "Fist" := by
  refine ⟨by decide, rfl, by decide, rfl, rfl, by decide⟩

/-- **C3, amended.** For every window contents of the discrete-label
smoother, the output is a value of maximal frequency in the window; when
several values are tied for the maximal count, the returned one is the
first maximiser in the iteration order of the Python `set` built from
the window — an order CPython leaves unspecified — and not necessarily
the value with the earliest first occurrence. -/
theorem spec_C3_amended :
    ∀ (setOrder h : List String) (current : String),
      ValidSetOrder setOrder (pushWindow 5 h current) →
      (smoothGesture setOrder h current).1 = pushWindow 5 h current ∧
      (smoothGesture setOrder h current).2 ∈ pushWindow 5 h current ∧
      ∀ y ∈ pushWindow 5 h current,
        (pushWindow 5 h current).count y ≤
          (pushWindow 5 h current).count (smoothGesture setOrder h current).2 :=
  fun setOrder h current hv => smoothGesture_spec setOrder h current hv

/-- **C3, witness.** The amended theorem applied to the concrete window
`["Fist", "Open Palm"]` with enumeration order `["Open Palm", "Fist"]`. -/
theorem spec_C3_witness :
    (smoothGesture ["Open Palm", "Fist"] ["Fist"] "Open Palm").2 ∈
      pushWindow 5 ["Fist"] "Open Palm" :=
  (spec_C3_amended ["Open Palm", "Fist"] ["Fist"] "Open Palm" (by decide)).2.1

/-- **C4, counterexample.** The capacity-8 mean-reduction smoother fed
the (non-empty) push sequence `[0, 100]` returns `50`, which is not an
element of its window `[0, 100]`. -/
theorem spec_C4_counterexample :
    runSmoothVolume [0, 100] = ([0, 100], 50) ∧
    ¬ (((runSmoothVolume [0, 100]).2 : ℚ) ∈ (runSmoothVolume [0, 100]).1) := by
  have heval : runSmoothVolume [0, 100] = ([0, 100], 50) := by
    simp only [runSmoothVolume, List.foldl, smoothVolume, pushWindow]
    norm_num [ratTrunc]
  refine ⟨heval, ?_⟩
  rw [heval]
  norm_num

/-- **C4, amended.** The capacity-5 mode-reduction smoother always
returns an element currently contained in its window (for any set
enumeration order); the capacity-8 mean-reduction smoother instead
returns the truncated arithmetic mean of its window, which always lies
strictly between (window lower bound − 1) and (window upper bound + 1)
but need not be an element of the window. -/
theorem spec_C4_amended :
    (∀ (setOrder h : List String) (current : String),
        ValidSetOrder setOrder (pushWindow 5 h current) →
        (smoothGesture setOrder h current).2 ∈ (smoothGesture setOrder h current).1) ∧
    (∀ (h : List ℚ) (v lo hi : ℚ),
        (∀ y ∈ pushWindow 8 h v, lo ≤ y ∧ y ≤ hi) →
        (smoothVolume h v).1 = pushWindow 8 h v ∧
        lo - 1 < ((smoothVolume h v).2 : ℚ) ∧ ((smoothVolume h v).2 : ℚ) < hi + 1) := by
  constructor
  · intro setOrder h current hv
    obtain ⟨h1, h2, _⟩ := smoothGesture_spec setOrder h current hv
    rw [h1]
    exact h2
  · intro h v lo hi hb
    have hne : pushWindow 8 h v ≠ [] := pushWindow_ne_nil 8 h v (by norm_num)
    have hlen : (0 : ℚ) < ((pushWindow 8 h v).length : ℚ) := by
      have := List.length_pos.mpr hne
      exact_mod_cast this
    have hsumhi : (pushWindow 8 h v).sum ≤ ((pushWindow 8 h v).length : ℚ) * hi :=
      list_sum_le_length_mul _ hi fun y hy => (hb y hy).2
    have hsumlo : ((pushWindow 8 h v).length : ℚ) * lo ≤ (pushWindow 8 h v).sum :=
      length_mul_le_list_sum _ lo fun y hy => (hb y hy).1
    have hmeanhi : (pushWindow 8 h v).sum / ((pushWindow 8 h v).length : ℚ) ≤ hi :=
      (div_le_iff₀ hlen).mpr (by linarith)
    have hmeanlo : lo ≤ (pushWindow 8 h v).sum / ((pushWindow 8 h v).length : ℚ) :=
      (le_div_iff₀ hlen).mpr (by linarith)
    obtain ⟨htl, htu⟩ :=
      ratTrunc_bounds ((pushWindow 8 h v).sum / ((pushWindow 8 h v).length : ℚ))
    refine ⟨rfl, ?_, ?_⟩
    · show lo - 1 < ((ratTrunc _ : Int) : ℚ)
      linarith
    · show ((ratTrunc _ : Int) : ℚ) < hi + 1
      linarith

/-- **C4, witness.** The amended theorem applied at concrete inputs:
a one-element gesture window and the volume window `[4]` with bounds
`3 ≤ y ≤ 4`. -/
theorem spec_C4_witness :
    ((smoothGesture ["A"] [] "A").2 ∈ (smoothGesture ["A"] [] "A").1) ∧
    ((3 : ℚ) - 1 < ((smoothVolume [] 4).2 : ℚ) ∧
      ((smoothVolume [] 4).2 : ℚ) < (4 : ℚ) + 1) :=
  ⟨spec_C4_amended.1 ["A"] [] "A" (by decide),
   ⟨(spec_C4_amended.2 [] 4 3 4 (by norm_num [pushWindow])).2.1,
    (spec_C4_amended.2 [] 4 3 4 (by norm_num [pushWindow])).2.2⟩⟩

/-! ## CursorMapper (`VirtualMouse.get_cursor_position`) -/

/-- `np.interp` on a two-point grid `[x0, x1] → [y0, y1]` (the only form
the source uses): values left of `x0` clamp to `y0`, right of `x1` clamp
to `y1`, values in between are linearly interpolated. -/
def npInterp (x x0 x1 y0 y1 : ℚ) : ℚ :=
  if x ≤ x0 then y0
  else if x1 ≤ x then y1
  else y0 + (x - x0) * (y1 - y0) / (x1 - x0)

/-- `np.clip` on a scalar. -/
def npClip (x lo hi : ℚ) : ℚ :=
  if x < lo then lo else if hi < x then hi else x

/-- The cursor-smoothing state `(prev_x, prev_y)` of `VirtualMouse`
(initially `(0, 0)`). -/
structure CursorState where
  prev_x : ℚ
  prev_y : ℚ
deriving DecidableEq, Repr

/-- `VirtualMouse.get_cursor_position` (virtual_mouse.py, lines 62-95),
parametrised by the screen size (`pyautogui.size()`) and the camera
frame size.  Constants fixed in `__init__`: active-zone margin 100,
sensitivity 2.5 per axis, smoothing divisor 7.  Order of the source:
interpolate into `[0, screen]` (clamping at the active-zone edges),
*then* multiply by sensitivity, *then* clip to `[0, screen - 1]`, then
smooth, then truncate to `int`. -/
def getCursorPosition (screenW screenH : Int) (frameW frameH : ℚ)
    (s : CursorState) (px py : ℚ) : CursorState × Int × Int :=
  let x1 := npInterp px 100 (frameW - 100) 0 (screenW : ℚ)
  let y1 := npInterp py 100 (frameH - 100) 0 (screenH : ℚ)
  let x2 := x1 * (5 / 2)
  let y2 := y1 * (5 / 2)
  let x3 := npClip x2 0 ((screenW : ℚ) - 1)
  let y3 := npClip y2 0 ((screenH : ℚ) - 1)
  let cx := s.prev_x + (x3 - s.prev_x) / 7
  let cy := s.prev_y + (y3 - s.prev_y) / 7
  (⟨cx, cy⟩, ratTrunc cx, ratTrunc cy)

/-- The pipeline as §4.4 of the spec words it: remap into `[0, screen]`,
clamp to `[0, screen - 1]`, multiply by the sensitivity *after* the
clamping with no re-clamping, smooth, truncate.  Stated only to be
compared against the source's `getCursorPosition`. -/
def getCursorPositionSpec (screenW screenH : Int) (frameW frameH : ℚ)
    (s : CursorState) (px py : ℚ) : CursorState × Int × Int :=
  let x1 := npClip (npInterp px 100 (frameW - 100) 0 (screenW : ℚ)) 0 ((screenW : ℚ) - 1)
  let y1 := npClip (npInterp py 100 (frameH - 100) 0 (screenH : ℚ)) 0 ((screenH : ℚ) - 1)
  let x2 := x1 * (5 / 2)
  let y2 := y1 * (5 / 2)
  let cx := s.prev_x + (x2 - s.prev_x) / 7
  let cy := s.prev_y + (y2 - s.prev_y) / 7
  (⟨cx, cy⟩, ratTrunc cx, ratTrunc cy)

lemma npClip_mem (x lo hi : ℚ) (h : lo ≤ hi) :
    lo ≤ npClip x lo hi ∧ npClip x lo hi ≤ hi := by
  unfold npClip
  split
  · exact ⟨le_refl lo, h⟩
  · split
    · exact ⟨h, le_refl hi⟩
    · constructor <;> linarith [not_lt.mp ‹¬ x < lo›, not_lt.mp ‹¬ hi < x›]

lemma ratTrunc_between (q : ℚ) (n : Int) (h0 : 0 ≤ q) (h1 : q ≤ (n : ℚ)) :
    0 ≤ ratTrunc q ∧ ratTrunc q ≤ n := by
  unfold ratTrunc
  rw [if_pos h0]
  refine ⟨Int.floor_nonneg.mpr h0, ?_⟩
  have hm := Int.floor_mono h1
  rwa [Int.floor_intCast] at hm

/-- **C2, counterexample.** With a 1920×1080 screen, a 640×480 frame and
the initial cursor state, a fingertip at the far active-zone corner
(540, 380) is mapped by the source to `(274, 154)`, while the pipeline
the claim describes (clamp before sensitivity, no re-clamping) would
produce `(685, 385)`: the source's order of operations is the opposite
of the claimed one, and the source's result is clipped back inside the
screen. -/
theorem spec_C2_counterexample :
    getCursorPosition 1920 1080 640 480 ⟨0, 0⟩ 540 380 = (⟨1919/7, 1079/7⟩, 274, 154) ∧
    getCursorPositionSpec 1920 1080 640 480 ⟨0, 0⟩ 540 380 = (⟨9595/14, 5395/14⟩, 685, 385) ∧
    getCursorPosition 1920 1080 640 480 ⟨0, 0⟩ 540 380 ≠
      getCursorPositionSpec 1920 1080 640 480 ⟨0, 0⟩ 540 380 := by
  have h1 : getCursorPosition 1920 1080 640 480 ⟨0, 0⟩ 540 380 =
      (⟨1919/7, 1079/7⟩, 274, 154) := by
    norm_num [getCursorPosition, npInterp, npClip, ratTrunc]
  have h2 : getCursorPositionSpec 1920 1080 640 480 ⟨0, 0⟩ 540 380 =
      (⟨9595/14, 5395/14⟩, 685, 385) := by
    norm_num [getCursorPositionSpec, npInterp, npClip, ratTrunc]
  refine ⟨h1, h2, ?_⟩
  intro heq
  rw [h1, h2] at heq
  exact absurd (congrArg (fun p => p.2.1) heq) (by decide)

/-- **C2, amended.** `CursorMapper` first linearly remaps each
coordinate (the interpolation itself caps at the active-zone edges,
into `[0, screen]`), *then* multiplies by the sensitivity factor, and
*then* clips the product to `[0, screen − 1]` before smoothing;
consequently, starting from any in-range cursor state, the stored state
and the returned screen coordinate always lie inside the screen
rectangle — never outside it. -/
theorem spec_C2_amended :
    ∀ (screenW screenH : Int) (frameW frameH : ℚ) (s : CursorState) (px py : ℚ),
      1 ≤ screenW → 1 ≤ screenH →
      0 ≤ s.prev_x → s.prev_x ≤ (screenW : ℚ) - 1 →
      0 ≤ s.prev_y → s.prev_y ≤ (screenH : ℚ) - 1 →
      (0 ≤ (getCursorPosition screenW screenH frameW frameH s px py).1.prev_x ∧
        (getCursorPosition screenW screenH frameW frameH s px py).1.prev_x ≤ (screenW : ℚ) - 1 ∧
        0 ≤ (getCursorPosition screenW screenH frameW frameH s px py).1.prev_y ∧
        (getCursorPosition screenW screenH frameW frameH s px py).1.prev_y ≤ (screenH : ℚ) - 1) ∧
      (0 ≤ (getCursorPosition screenW screenH frameW frameH s px py).2.1 ∧
        (getCursorPosition screenW screenH frameW frameH s px py).2.1 ≤ screenW - 1 ∧
        0 ≤ (getCursorPosition screenW screenH frameW frameH s px py).2.2 ∧
        (getCursorPosition screenW screenH frameW frameH s px py).2.2 ≤ screenH - 1) := by
  intro screenW screenH frameW frameH s px py hW hH hx0 hx1 hy0 hy1
  have hW1 : (0 : ℚ) ≤ (screenW : ℚ) - 1 := by
    have : (1 : ℚ) ≤ (screenW : ℚ) := by exact_mod_cast hW
    linarith
  have hH1 : (0 : ℚ) ≤ (screenH : ℚ) - 1 := by
    have : (1 : ℚ) ≤ (screenH : ℚ) := by exact_mod_cast hH
    linarith
  obtain ⟨hx3a, hx3b⟩ := npClip_mem
    (npInterp px 100 (frameW - 100) 0 (screenW : ℚ) * (5 / 2)) 0 ((screenW : ℚ) - 1) hW1
  obtain ⟨hy3a, hy3b⟩ := npClip_mem
    (npInterp py 100 (frameH - 100) 0 (screenH : ℚ) * (5 / 2)) 0 ((screenH : ℚ) - 1) hH1
  simp only [getCursorPosition]
  have hcx0 : 0 ≤ s.prev_x +
      (npClip (npInterp px 100 (frameW - 100) 0 (screenW : ℚ) * (5 / 2)) 0 ((screenW : ℚ) - 1)
        - s.prev_x) / 7 := by linarith
  have hcx1 : s.prev_x +
      (npClip (npInterp px 100 (frameW - 100) 0 (screenW : ℚ) * (5 / 2)) 0 ((screenW : ℚ) - 1)
        - s.prev_x) / 7 ≤ (screenW : ℚ) - 1 := by linarith
  have hcy0 : 0 ≤ s.prev_y +
      (npClip (npInterp py 100 (frameH - 100) 0 (screenH : ℚ) * (5 / 2)) 0 ((screenH : ℚ) - 1)
        - s.prev_y) / 7 := by linarith
  have hcy1 : s.prev_y +
      (npClip (npInterp py 100 (frameH - 100) 0 (screenH : ℚ) * (5 / 2)) 0 ((screenH : ℚ) - 1)
        - s.prev_y) / 7 ≤ (screenH : ℚ) - 1 := by linarith
  have hcx1c : s.prev_x +
      (npClip (npInterp px 100 (frameW - 100) 0 (screenW : ℚ) * (5 / 2)) 0 ((screenW : ℚ) - 1)
        - s.prev_x) / 7 ≤ ((screenW - 1 : Int) : ℚ) := by push_cast; linarith
  have hcy1c : s.prev_y +
      (npClip (npInterp py 100 (frameH - 100) 0 (screenH : ℚ) * (5 / 2)) 0 ((screenH : ℚ) - 1)
        - s.prev_y) / 7 ≤ ((screenH - 1 : Int) : ℚ) := by push_cast; linarith
  obtain ⟨htx0, htx1⟩ := ratTrunc_between _ (screenW - 1) hcx0 hcx1c
  obtain ⟨hty0, hty1⟩ := ratTrunc_between _ (screenH - 1) hcy0 hcy1c
  exact ⟨⟨hcx0, hcx1, hcy0, hcy1⟩, ⟨htx0, htx1, hty0, hty1⟩⟩

/-- **C2, witness.** The amended theorem applied at the concrete
configuration of the counterexample: the output stays inside the
1920×1080 screen. -/
theorem spec_C2_witness :
    0 ≤ (getCursorPosition 1920 1080 640 480 ⟨0, 0⟩ 540 380).2.1 ∧
    (getCursorPosition 1920 1080 640 480 ⟨0, 0⟩ 540 380).2.1 ≤ 1920 - 1 := by
  obtain ⟨-, h2⟩ := spec_C2_amended 1920 1080 640 480 ⟨0, 0⟩ 540 380
    (by norm_num) (by norm_num) (by norm_num) (by norm_num) (by norm_num) (by norm_num)
  exact ⟨h2.1, h2.2.1⟩

/-! ## ClickDebouncer (`VirtualMouse.detect_left_click`) -/

/-- `click_cooldown` (seconds), fixed in `VirtualMouse.__init__`. -/
def clickCooldown : ℚ := 3 / 10

/-- `click_threshold` (pixels), fixed in `VirtualMouse.__init__`. -/
def clickThreshold : Int := 40

/-- Squared thumb-tip-to-index-tip distance (landmarks 4 and 8); total
accessor, only used below under the length-≥-21 guard of the source. -/
def pinchDistSq (lm : List LPoint) : Int :=
  calculateDistanceSq (lm.getD 4 default) (lm.getD 8 default)

/-- `VirtualMouse.detect_left_click` (virtual_mouse.py, lines 97-127):
given the landmark list, the current time and the current
`last_click_time`, returns whether a click fires together with the
updated `last_click_time`.  Source order: length guard, distance
computation, cooldown guard, distance guard (the distance computation
is pure, so computing it inside the guard is equivalent). -/
def detectLeftClick (lm : List LPoint) (now last : ℚ) : Bool × ℚ :=
  if lm.length < 21 then (false, last)
  else if now - last < clickCooldown then (false, last)
  else if pinchDistSq lm < clickThreshold ^ 2 then (true, now)
  else (false, last)

/-- Times at which a left click fires when the debouncer processes the
given (landmarks, time) frames in order, threading `last_click_time`. -/
def runLeftClicks : List (List LPoint × ℚ) → ℚ → List ℚ
  | [], _ => []
  | (lm, now) :: rest, last =>
    if (detectLeftClick lm now last).1 then
      now :: runLeftClicks rest (detectLeftClick lm now last).2
    else
      runLeftClicks rest (detectLeftClick lm now last).2

lemma detectLeftClick_snd (lm : List LPoint) (now last : ℚ) :
    (detectLeftClick lm now last).2 =
      (if (detectLeftClick lm now last).1 then now else last) := by
  unfold detectLeftClick
  split
  · rfl
  split
  · rfl
  split
  · rfl
  · rfl

lemma detectLeftClick_fire_iff (lm : List LPoint) (now last : ℚ) :
    ((detectLeftClick lm now last).1 = true ↔
      21 ≤ lm.length ∧ clickCooldown ≤ now - last ∧ pinchDistSq lm < clickThreshold ^ 2) := by
  unfold detectLeftClick
  split_ifs with h1 h2 h3
  · constructor
    · intro h; exact absurd h (by simp)
    · rintro ⟨ha, -, -⟩; omega
  · constructor
    · intro h; exact absurd h (by simp)
    · rintro ⟨-, hb, -⟩; linarith
  · simp only [true_iff]
    exact ⟨by omega, by linarith, h3⟩
  · constructor
    · intro h; exact absurd h (by simp)
    · rintro ⟨-, -, hc⟩; exact h3 hc

lemma runLeftClicks_head_ge :
    ∀ (frames : List (List LPoint × ℚ)) (last t : ℚ),
      (runLeftClicks frames last).head? = some t → clickCooldown ≤ t - last
  | [], _, t => by intro h; exact absurd h (by simp [runLeftClicks])
  | (lm, now) :: rest, last, t => by
      simp only [runLeftClicks]
      by_cases hf : (detectLeftClick lm now last).1 = true
      · rw [if_pos hf]
        intro h
        have ht : t = now := by
          simpa using h.symm
        subst ht
        exact ((detectLeftClick_fire_iff lm t last).mp hf).2.1
      · rw [if_neg hf]
        have hl : (detectLeftClick lm now last).2 = last := by
          rw [detectLeftClick_snd, if_neg hf]
        rw [hl]
        exact runLeftClicks_head_ge rest last t

lemma runLeftClicks_chain :
    ∀ (frames : List (List LPoint × ℚ)) (last : ℚ),
      (runLeftClicks frames last).Chain' (fun a b => clickCooldown ≤ b - a)
  | [], _ => by simp [runLeftClicks]
  | (lm, now) :: rest, last => by
      simp only [runLeftClicks]
      by_cases hf : (detectLeftClick lm now last).1 = true
      · rw [if_pos hf]
        have h2 : (detectLeftClick lm now last).2 = now := by
          rw [detectLeftClick_snd, if_pos hf]
        rw [h2]
        refine List.chain'_cons'.mpr ⟨?_, runLeftClicks_chain rest now⟩
        intro t ht
        exact runLeftClicks_head_ge rest now t ht
      · rw [if_neg hf]
        exact runLeftClicks_chain rest _

/-- **C6.** `ClickDebouncer`: a click fires iff the landmark set is
complete, `now − last_click_time ≥ cooldown` and the squared
thumb-index distance is below the squared threshold; firing (and only
firing) sets `last_click_time = now`; consequently, over any frame
sequence, consecutive fired clicks are never less than one cooldown
apart. -/
theorem spec_C6 :
    (∀ (lm : List LPoint) (now last : ℚ),
      ((detectLeftClick lm now last).1 = true ↔
        21 ≤ lm.length ∧ clickCooldown ≤ now - last ∧
          pinchDistSq lm < clickThreshold ^ 2) ∧
      (detectLeftClick lm now last).2 =
        (if (detectLeftClick lm now last).1 then now else last)) ∧
    (∀ (frames : List (List LPoint × ℚ)) (last : ℚ),
      (runLeftClicks frames last).Chain' (fun a b => clickCooldown ≤ b - a)) :=
  ⟨fun lm now last =>
    ⟨detectLeftClick_fire_iff lm now last, detectLeftClick_snd lm now last⟩,
   runLeftClicks_chain⟩

/-- A 21-point hand with only the index finger raised and the thumb tip
1px from the index tip (a pinch). -/
def pinchHand : List LPoint :=
  (List.range 21).map fun i => if i = 8 then ⟨8, 0, -1⟩ else ⟨i, 0, 0⟩

example : fingersUp pinchHand = some [0, 1, 0, 0, 0] := by decide

/-- **C6, witness.**  The scenario of the claim with a ready debouncer
(`last_click_time = −0.3`): pinches at t = 0 and t = 0.2 yield exactly
one click (at t = 0) and a pinch at t = 0.35 fires the second one. -/
theorem spec_C6_witness :
    (detectLeftClick pinchHand 0 (-(3/10))).1 = true ∧
    (detectLeftClick pinchHand (1/5) 0).1 = false ∧
    (detectLeftClick pinchHand (7/20) 0).1 = true := by
  refine ⟨(spec_C6.1 pinchHand 0 (-(3/10))).1.mpr
      ⟨by decide, by norm_num [clickCooldown], by decide⟩, ?_,
    (spec_C6.1 pinchHand (7/20) 0).1.mpr
      ⟨by decide, by norm_num [clickCooldown], by decide⟩⟩
  by_cases hb : (detectLeftClick pinchHand (1/5) 0).1 = true
  · exfalso
    obtain ⟨-, h2, -⟩ := (spec_C6.1 pinchHand (1/5) 0).1.mp hb
    norm_num [clickCooldown] at h2
  · simpa using hb

/-! ## ScrollEngine (`VirtualMouse.perform_scroll`) -/

/-- `VirtualMouse.perform_scroll` (virtual_mouse.py, lines 161-178):
state is `scroll_start_y` (initialised to 0 and reset to 0 on leaving
fist pose); returns the new `scroll_start_y` and the emitted scroll
amount, if any.  `int(delta_y / 10)` (true division then truncation
toward zero) is `Int.tdiv` for this positive divisor. -/
def performScroll (anchor : Int) (current_y : Int) : Int × Option Int :=
  if anchor = 0 then (current_y, none)
  else if 20 < |anchor - current_y| then
    (current_y, some (Int.tdiv (anchor - current_y) 10))
  else (anchor, none)

/-- The `ScrollEngine` of §4.6 of the spec, with a genuinely distinct
"unset" sentinel (`Option`).  Stated only to be compared against the
source's `performScroll`. -/
def performScrollSpec (anchor : Option Int) (current_y : Int) :
    Option Int × Option Int :=
  match anchor with
  | none => (some current_y, none)
  | some a =>
    if 20 < |a - current_y| then (some current_y, some (Int.tdiv (a - current_y) 10))
    else (some a, none)

/-- **C5, counterexample.** The source's "unset" sentinel is the value 0
itself.  Entering fist at `current_y = 0` leaves the anchor equal to 0 —
indistinguishable from unset — so the next fist frame at `y = 25`
*re-anchors* and emits nothing, whereas an anchor genuinely recorded at
0 (the behaviour the claim describes) would emit a scroll of `−2`. -/
theorem spec_C5_counterexample :
    performScroll 0 0 = (0, none) ∧
    performScroll 0 25 = (25, none) ∧
    performScrollSpec (some 0) 25 = (some 25, some (-2)) ∧
    (performScroll 0 25).2 ≠ (performScrollSpec (some 0) 25).2 := by
  refine ⟨by decide, by decide, by decide, by decide⟩

/-- **C5, amended.** The scroll anchor's "unset" sentinel is the
y-coordinate 0 itself, conflated with a legitimate y of 0: any fist
frame arriving with anchor 0 — whether 0 came from the exit-of-fist
reset or from anchoring at `y = 0` — takes the anchoring branch (new
anchor `current_y`, nothing emitted), while a nonzero anchor behaves
exactly as a set anchor of the spec's engine. -/
theorem spec_C5_amended :
    (∀ y : Int, performScroll 0 y = (y, none)) ∧
    (∀ a y : Int, a ≠ 0 →
      (some (performScroll a y).1, (performScroll a y).2) = performScrollSpec (some a) y) := by
  constructor
  · intro y
    unfold performScroll
    rw [if_pos rfl]
  · intro a y ha
    unfold performScroll
    rw [if_neg ha]
    have hs : performScrollSpec (some a) y =
        if 20 < |a - y| then (some y, some (Int.tdiv (a - y) 10)) else (some a, none) := rfl
    rw [hs]
    split_ifs with h
    · rfl
    · rfl

/-- **C5, witness.** The amended theorem at concrete inputs: anchor 0 is
treated as unset at `y = 7`; a set anchor 300 with `y = 270` emits a
scroll of 3 (the spec's §8 example) exactly like the spec's engine. -/
theorem spec_C5_witness :
    performScroll 0 7 = (7, none) ∧
    (some (performScroll 300 270).1, (performScroll 300 270).2) =
      performScrollSpec (some 300) 270 :=
  ⟨spec_C5_amended.1 7, spec_C5_amended.2 300 270 (by decide)⟩

/-! ## The per-frame gesture dispatch of `virtual_mouse.main` -/

/-- `VirtualMouse.detect_right_click` (virtual_mouse.py, lines 129-143):
all five finger flags truthy. -/
def detectRightClick (fingers : List Nat) : Bool :=
  if fingers.length ≠ 5 then false else fingers.all (fun f => f != 0)

/-- `VirtualMouse.detect_scroll_mode` (virtual_mouse.py, lines 145-159):
no finger flag truthy. -/
def detectScrollMode (fingers : List Nat) : Bool :=
  if fingers.length ≠ 5 then false else !(fingers.any (fun f => f != 0))

/-- The state of `main`'s loop relevant to clicking and scrolling:
the single shared `last_click_time` and the scroll anchor. -/
structure MouseLoopState where
  last_click_time : ℚ
  scroll_start_y : Int
deriving DecidableEq, Repr

/-- A discrete click event emitted by one frame of `main`. -/
inductive ClickEvent
  | left
  | right
deriving DecidableEq, Repr

/-- One iteration of the gesture branch of `virtual_mouse.main`
(virtual_mouse.py, lines 330-381), restricted to the state the claims
are about (`last_click_time`, `scroll_start_y`) and the click events.
Branch order as in the source: no hand / scroll mode (fist) /
right click (all up, strict cooldown compare, shared `last_click_time`)
/ cursor move when the index flag is truthy (left-click detection
inside) / idle.  Cursor motion and the scroll emission do not touch the
click state and are left to `getCursorPosition` / `performScroll`.
`none` is an uncaught `IndexError` from `fingers_up`. -/
def mainStep (lm : List LPoint) (now : ℚ) (s : MouseLoopState) :
    Option (MouseLoopState × Option ClickEvent) :=
  if lm.length = 0 then some ({ s with scroll_start_y := 0 }, none)
  else
    (fingersUp lm).bind fun fingers =>
    if detectScrollMode fingers then
      some ({ s with
                scroll_start_y :=
                  (performScroll s.scroll_start_y ((lm.getD 8 default).y)).1 },
            none)
    else if detectRightClick fingers then
      if clickCooldown < now - s.last_click_time then
        some (⟨now, 0⟩, some ClickEvent.right)
      else some ({ s with scroll_start_y := 0 }, none)
    else if fingers.getD 1 0 ≠ 0 then
      some (⟨(detectLeftClick lm now s.last_click_time).2, 0⟩,
            if (detectLeftClick lm now s.last_click_time).1 then some ClickEvent.left
            else none)
    else some ({ s with scroll_start_y := 0 }, none)

/-- Per-frame characterisation of the click timestamps of `main`:
a left click needs `cooldown ≤ now − last_click_time`, a right click
needs the strict `cooldown < now − last_click_time`, both set the shared
`last_click_time` to `now` when they fire, and a frame that emits
nothing leaves `last_click_time` unchanged. -/
lemma mainStep_click_times (lm : List LPoint) (now : ℚ) (s s2 : MouseLoopState)
    (ev : Option ClickEvent) (hstep : mainStep lm now s = some (s2, ev)) :
    (ev = some ClickEvent.left →
      clickCooldown ≤ now - s.last_click_time ∧ s2.last_click_time = now) ∧
    (ev = some ClickEvent.right →
      clickCooldown < now - s.last_click_time ∧ s2.last_click_time = now) ∧
    (ev = none → s2.last_click_time = s.last_click_time) := by
  unfold mainStep at hstep
  by_cases h0 : lm.length = 0
  · rw [if_pos h0] at hstep
    simp only [Option.some.injEq, Prod.mk.injEq] at hstep
    obtain ⟨rfl, rfl⟩ := hstep
    exact ⟨by simp, by simp, fun _ => rfl⟩
  · rw [if_neg h0] at hstep
    cases hfu : fingersUp lm with
    | none => rw [hfu] at hstep; simp at hstep
    | some fingers =>
      rw [hfu] at hstep
      simp only [Option.some_bind] at hstep
      by_cases hsc : detectScrollMode fingers = true
      · rw [if_pos hsc] at hstep
        simp only [Option.some.injEq, Prod.mk.injEq] at hstep
        obtain ⟨rfl, rfl⟩ := hstep
        exact ⟨by simp, by simp, fun _ => rfl⟩
      · rw [if_neg hsc] at hstep
        by_cases hrc : detectRightClick fingers = true
        · rw [if_pos hrc] at hstep
          by_cases hcd : clickCooldown < now - s.last_click_time
          · rw [if_pos hcd] at hstep
            simp only [Option.some.injEq, Prod.mk.injEq] at hstep
            obtain ⟨rfl, rfl⟩ := hstep
            exact ⟨by simp, fun _ => ⟨hcd, rfl⟩, by simp⟩
          · rw [if_neg hcd] at hstep
            simp only [Option.some.injEq, Prod.mk.injEq] at hstep
            obtain ⟨rfl, rfl⟩ := hstep
            exact ⟨by simp, by simp, fun _ => rfl⟩
        · rw [if_neg hrc] at hstep
          by_cases hidx : fingers.getD 1 0 ≠ 0
          · rw [if_pos hidx] at hstep
            simp only [Option.some.injEq, Prod.mk.injEq] at hstep
            obtain ⟨rfl, rfl⟩ := hstep
            by_cases hfire : (detectLeftClick lm now s.last_click_time).1 = true
            · refine ⟨fun _ => ?_, ?_, ?_⟩
              · refine ⟨((detectLeftClick_fire_iff lm now s.last_click_time).mp hfire).2.1, ?_⟩
                show (detectLeftClick lm now s.last_click_time).2 = now
                rw [detectLeftClick_snd, if_pos hfire]
              · rw [if_pos hfire]; intro h; exact absurd h (by simp)
              · rw [if_pos hfire]; intro h; exact absurd h (by simp)
            · refine ⟨?_, ?_, fun _ => ?_⟩
              · rw [if_neg hfire]; intro h; exact absurd h (by simp)
              · rw [if_neg hfire]; intro h; exact absurd h (by simp)
              · show (detectLeftClick lm now s.last_click_time).2 = s.last_click_time
                rw [detectLeftClick_snd, if_neg hfire]
          · rw [if_neg hidx] at hstep
            simp only [Option.some.injEq, Prod.mk.injEq] at hstep
            obtain ⟨rfl, rfl⟩ := hstep
            exact ⟨by simp, by simp, fun _ => rfl⟩

/-- **C10.** Left and right click share the single `last_click_time`:
per frame, a left click fires only when `cooldown ≤ now − last`, a right
click only when `cooldown < now − last`, each fire sets the shared
timestamp to `now` and an event-free frame preserves it; consequently a
right click at `t₁` blocks any left click before `t₁ + cooldown`, and a
left click at `t₁` blocks any right click up to and including
`t₁ + cooldown`, even though they are distinct gestures. -/
theorem spec_C10 :
    (∀ (lm : List LPoint) (now : ℚ) (s s2 : MouseLoopState) (ev : Option ClickEvent),
      mainStep lm now s = some (s2, ev) →
      (ev = some ClickEvent.left →
        clickCooldown ≤ now - s.last_click_time ∧ s2.last_click_time = now) ∧
      (ev = some ClickEvent.right →
        clickCooldown < now - s.last_click_time ∧ s2.last_click_time = now) ∧
      (ev = none → s2.last_click_time = s.last_click_time)) ∧
    (∀ (lm1 : List LPoint) (now1 : ℚ) (s s1 : MouseLoopState)
        (lm2 : List LPoint) (now2 : ℚ) (s2 : MouseLoopState),
      mainStep lm1 now1 s = some (s1, some ClickEvent.right) →
      mainStep lm2 now2 s1 = some (s2, some ClickEvent.left) →
      now1 + clickCooldown ≤ now2) ∧
    (∀ (lm1 : List LPoint) (now1 : ℚ) (s s1 : MouseLoopState)
        (lm2 : List LPoint) (now2 : ℚ) (s2 : MouseLoopState),
      mainStep lm1 now1 s = some (s1, some ClickEvent.left) →
      mainStep lm2 now2 s1 = some (s2, some ClickEvent.right) →
      now1 + clickCooldown < now2) := by
  refine ⟨mainStep_click_times, ?_, ?_⟩
  · intro lm1 now1 s s1 lm2 now2 s2 h1 h2
    obtain ⟨-, hr, -⟩ := mainStep_click_times lm1 now1 s s1 _ h1
    obtain ⟨-, hlast1⟩ := hr rfl
    obtain ⟨hl, -, -⟩ := mainStep_click_times lm2 now2 s1 s2 _ h2
    obtain ⟨hgap, -⟩ := hl rfl
    rw [hlast1] at hgap
    linarith
  · intro lm1 now1 s s1 lm2 now2 s2 h1 h2
    obtain ⟨hl, -, -⟩ := mainStep_click_times lm1 now1 s s1 _ h1
    obtain ⟨-, hlast1⟩ := hl rfl
    obtain ⟨-, hr, -⟩ := mainStep_click_times lm2 now2 s1 s2 _ h2
    obtain ⟨hgap, -⟩ := hr rfl
    rw [hlast1] at hgap
    linarith

/-- **C10, witness.**  A right click on an all-fingers-up frame at
`t = 1` followed by a pinch frame at `t = 1.3` that fires a left click:
the theorem yields `1 + cooldown ≤ 1.3` (the left click waited a full
cooldown after the right click). -/
theorem spec_C10_witness : (1 : ℚ) + clickCooldown ≤ 13/10 := by
  have hfu1 : fingersUp allUpHand = some [1, 1, 1, 1, 1] := by decide
  have hfu2 : fingersUp pinchHand = some [0, 1, 0, 0, 0] := by decide
  have h1 : mainStep allUpHand 1 ⟨0, 0⟩ = some (⟨1, 0⟩, some ClickEvent.right) := by
    unfold mainStep
    rw [if_neg (by decide), hfu1]
    simp only [Option.some_bind]
    rw [if_neg (by decide), if_pos (by decide),
        if_pos (by norm_num [clickCooldown])]
  have hfire : (detectLeftClick pinchHand (13/10) 1).1 = true := by
    unfold detectLeftClick
    rw [if_neg (by decide), if_neg (by norm_num [clickCooldown]), if_pos (by decide)]
  have hsnd : (detectLeftClick pinchHand (13/10) 1).2 = 13/10 := by
    unfold detectLeftClick
    rw [if_neg (by decide), if_neg (by norm_num [clickCooldown]), if_pos (by decide)]
  have h2 : mainStep pinchHand (13/10) ⟨1, 0⟩ = some (⟨13/10, 0⟩, some ClickEvent.left) := by
    unfold mainStep
    rw [if_neg (by decide), hfu2]
    simp only [Option.some_bind]
    rw [if_neg (by decide), if_neg (by decide), if_pos (by decide), hfire, hsnd]
    rfl
  exact spec_C10.2.1 allUpHand 1 ⟨0, 0⟩ ⟨1, 0⟩ pinchHand (13/10) ⟨13/10, 0⟩ h1 h2

/-! ## VolumeMapper (`VolumeController.set_volume`) -/

/-- The per-session state of `VolumeController` that `set_volume`
touches: the smoothing window (`volume_history`), the held percentage
(`current_volume`) and whether a backend was resolved at construction
(`volume_available`). -/
structure VolumeState where
  volume_history : List ℚ
  current_volume : Int
  volume_available : Bool
deriving DecidableEq, Repr

/-- `VolumeController.set_volume` (volume_control.py, lines 168-237):
interpolate the pinch distance into `[0, 100]` over the
`[min_distance, max_distance] = [20, 280]` range, clip (a no-op after
the clamping interpolation, kept for faithfulness), push through the
mean smoother; if the smoothed value is within 2 percentage points of
`current_volume`, return the held percentage with no state change and
no dispatch; otherwise update `current_volume` and — when a backend is
available — dispatch the new percentage.  Result: (new state, returned
percentage, dispatched percentage if any).  The backend `try/except`
(which can only flip `volume_available` off after a backend error) is
external I/O and not modelled. -/
def setVolume (s : VolumeState) (distance : ℚ) : VolumeState × Int × Option Int :=
  if |(smoothVolume s.volume_history
        (npClip (npInterp distance 20 280 0 100) 0 100)).2 - s.current_volume| < 2 then
    ({ s with volume_history :=
        (smoothVolume s.volume_history
          (npClip (npInterp distance 20 280 0 100) 0 100)).1 },
     s.current_volume, none)
  else
    ({ volume_history :=
        (smoothVolume s.volume_history
          (npClip (npInterp distance 20 280 0 100) 0 100)).1,
       current_volume :=
        (smoothVolume s.volume_history
          (npClip (npInterp distance 20 280 0 100) 0 100)).2,
       volume_available := s.volume_available },
     (smoothVolume s.volume_history
        (npClip (npInterp distance 20 280 0 100) 0 100)).2,
     if s.volume_available then
       some ((smoothVolume s.volume_history
         (npClip (npInterp distance 20 280 0 100) 0 100)).2)
     else none)

/-- **C7.** `VolumeMapper` hysteresis: when the smoothed percentage is
within 2 percentage points of the held one, `set_volume` performs no
update — the held percentage is unchanged, nothing is dispatched, and
the previously held percentage is returned; otherwise the held
percentage is updated to the smoothed value, returned, and dispatched
to the backend exactly when one is attached (`volume_available`). -/
theorem spec_C7 :
    ∀ (s : VolumeState) (distance : ℚ),
      (|(smoothVolume s.volume_history
            (npClip (npInterp distance 20 280 0 100) 0 100)).2 - s.current_volume| < 2 →
        (setVolume s distance).1.current_volume = s.current_volume ∧
        (setVolume s distance).2.1 = s.current_volume ∧
        (setVolume s distance).2.2 = none) ∧
      (¬ |(smoothVolume s.volume_history
            (npClip (npInterp distance 20 280 0 100) 0 100)).2 - s.current_volume| < 2 →
        (setVolume s distance).1.current_volume =
          (smoothVolume s.volume_history
            (npClip (npInterp distance 20 280 0 100) 0 100)).2 ∧
        (setVolume s distance).2.1 =
          (smoothVolume s.volume_history
            (npClip (npInterp distance 20 280 0 100) 0 100)).2 ∧
        (setVolume s distance).2.2 =
          (if s.volume_available then
            some ((smoothVolume s.volume_history
              (npClip (npInterp distance 20 280 0 100) 0 100)).2)
          else none)) ∧
      (setVolume s distance).1.volume_history =
        (smoothVolume s.volume_history
          (npClip (npInterp distance 20 280 0 100) 0 100)).1 ∧
      (setVolume s distance).1.volume_available = s.volume_available := by
  intro s distance
  by_cases hgate : |(smoothVolume s.volume_history
      (npClip (npInterp distance 20 280 0 100) 0 100)).2 - s.current_volume| < 2
  · refine ⟨fun _ => ?_, fun hc => absurd hgate hc, ?_, ?_⟩
    · unfold setVolume
      rw [if_pos hgate]
      exact ⟨rfl, rfl, rfl⟩
    · unfold setVolume
      rw [if_pos hgate]
    · unfold setVolume
      rw [if_pos hgate]
  · refine ⟨fun hc => absurd hc hgate, fun _ => ?_, ?_, ?_⟩
    · unfold setVolume
      rw [if_neg hgate]
      exact ⟨rfl, rfl, rfl⟩
    · unfold setVolume
      rw [if_neg hgate]
    · unfold setVolume
      rw [if_neg hgate]

/-- **C7, witness.**  The theorem at concrete inputs, exercising both
branches: a fresh state held at 50% with an attached backend sees a
fully open pinch (distance 280 → smoothed 100): update, return and
dispatch 100; a state already holding 100% with window `[100]` sees the
same pinch (smoothed stays 100, |Δ| = 0 < 2): the held 100 is returned
and nothing is dispatched. -/
theorem spec_C7_witness :
    ((setVolume ⟨[], 50, true⟩ 280).2.1 = 100 ∧
      (setVolume ⟨[], 50, true⟩ 280).2.2 = some 100) ∧
    ((setVolume ⟨[100], 100, true⟩ 280).2.1 = 100 ∧
      (setVolume ⟨[100], 100, true⟩ 280).2.2 = none) := by
  have hsm1 : (smoothVolume ([] : List ℚ)
      (npClip (npInterp 280 20 280 0 100) 0 100)).2 = 100 := by
    norm_num [smoothVolume, pushWindow, npClip, npInterp, ratTrunc]
  have hsm2 : (smoothVolume ([100] : List ℚ)
      (npClip (npInterp 280 20 280 0 100) 0 100)).2 = 100 := by
    norm_num [smoothVolume, pushWindow, npClip, npInterp, ratTrunc]
  constructor
  · obtain ⟨-, hb, -, -⟩ := spec_C7 ⟨[], 50, true⟩ 280
    obtain ⟨-, hret, hdis⟩ := hb (by rw [hsm1]; norm_num)
    refine ⟨by rw [hret, hsm1], by rw [hdis, if_pos rfl, hsm1]⟩
  · obtain ⟨ha, -, -, -⟩ := spec_C7 ⟨[100], 100, true⟩ 280
    obtain ⟨-, hret, hdis⟩ := ha (by rw [hsm2]; norm_num)
    exact ⟨hret, hdis⟩

/-! ## StrokeCanvas (`VirtualPainter`) -/

/-- A BGR pixel value. -/
abbrev Color := Int × Int × Int

/-- The persistent drawing buffer (`self.canvas`), as its pixel map. -/
abbrev Canvas := Int → Int → Color

/-- One palette box of `setup_color_palette`. -/
structure ColorBox where
  x1 : Int
  y1 : Int
  x2 : Int
  y2 : Int
  color : Color
deriving DecidableEq, Repr

/-- `VirtualPainter.setup_color_palette` (virtual_painter.py, lines
36-51): six 100×60 boxes at `y = 20`, starting at `x = 50` with spacing
120, in dict insertion order red, green, blue, yellow, white, eraser
(BGR values from `self.colors`). -/
def colorBoxes : List ColorBox :=
  [ ⟨50, 20, 150, 80, (0, 0, 255)⟩,
    ⟨170, 20, 270, 80, (0, 255, 0)⟩,
    ⟨290, 20, 390, 80, (255, 0, 0)⟩,
    ⟨410, 20, 510, 80, (0, 255, 255)⟩,
    ⟨530, 20, 630, 80, (255, 255, 255)⟩,
    ⟨650, 20, 750, 80, (0, 0, 0)⟩ ]

/-- `VirtualPainter.check_color_selection` (lines 74-81): the first box
strictly containing the fingertip sets the colour; otherwise the
current colour is kept. -/
def checkColorSelection (curr : Color) (x y : Int) : Color :=
  match colorBoxes.find? (fun b => decide (b.x1 < x ∧ x < b.x2 ∧ b.y1 < y ∧ y < b.y2)) with
  | some b => b.color
  | none => curr

/-- The `VirtualPainter` state mutated by `process_frame`:
the buffer, the `drawing` flag, the stroke-continuity point
`(prev_x, prev_y)` (the `(0, 0)` sentinel means "none") and the
current colour. -/
structure PainterState where
  canvas : Canvas
  drawing : Bool
  prev_x : Int
  prev_y : Int
  current_color : Color

/-- The hand-present drawing logic of `VirtualPainter.process_frame`
(virtual_painter.py, lines 120-164).  `drawLine` abstracts `cv2.line`
into the buffer (rasterisation itself is external to the engine);
`(xi, yi)` is the index fingertip (landmark 8); `fingers` is the
finger-flag list (length 5 whenever a hand is present).  Branches in
source order: Selection (index ∧ middle), Draw (index ∧ ¬middle) with
the palette-strip guard `y > 100`, otherwise stop drawing. -/
def processFrameHand (drawLine : Canvas → Int × Int → Int × Int → Color → Int → Canvas)
    (s : PainterState) (fingers : List Nat) (xi yi : Int) : PainterState :=
  if fingers.getD 1 0 ≠ 0 ∧ fingers.getD 2 0 ≠ 0 then
    { s with drawing := false,
             current_color := checkColorSelection s.current_color xi yi,
             prev_x := 0, prev_y := 0 }
  else if fingers.getD 1 0 ≠ 0 ∧ fingers.getD 2 0 = 0 then
    if 100 < yi then
      { s with
          canvas := drawLine s.canvas
            (if s.prev_x = 0 ∧ s.prev_y = 0 then (xi, yi) else (s.prev_x, s.prev_y))
            (xi, yi) s.current_color
            (if s.current_color = (0, 0, 0) then 50 else 10),
          prev_x := xi, prev_y := yi, drawing := true }
    else { s with prev_x := 0, prev_y := 0 }
  else
    { s with drawing := false, prev_x := 0, prev_y := 0 }

/-- `VirtualPainter.clear_canvas` (lines 179-182): `self.canvas.fill(0)`
zeroes every pixel. -/
def clearCanvas (s : PainterState) : PainterState :=
  { s with canvas := fun _ _ => (0, 0, 0) }

/-- **C8.** In Selection mode (index and middle fingers up) a processed
frame leaves every pixel of the persistent buffer unchanged and resets
the stroke-continuity point to the "none" sentinel; the explicit clear
command sets every pixel of the buffer to zero. -/
theorem spec_C8 :
    (∀ (drawLine : Canvas → Int × Int → Int × Int → Color → Int → Canvas)
        (s : PainterState) (fingers : List Nat) (xi yi : Int),
      fingers.getD 1 0 ≠ 0 → fingers.getD 2 0 ≠ 0 →
      (processFrameHand drawLine s fingers xi yi).canvas = s.canvas ∧
      (processFrameHand drawLine s fingers xi yi).prev_x = 0 ∧
      (processFrameHand drawLine s fingers xi yi).prev_y = 0) ∧
    (∀ (s : PainterState) (x y : Int), (clearCanvas s).canvas x y = (0, 0, 0)) := by
  constructor
  · intro drawLine s fingers xi yi h1 h2
    unfold processFrameHand
    rw [if_pos ⟨h1, h2⟩]
    exact ⟨rfl, rfl, rfl⟩
  · intro s x y
    rfl

/-- **C8, witness.**  The theorem at a concrete state whose buffer is
uniformly `(9, 9, 9)`, with a repaint-everything `drawLine` and a
Selection-mode frame (`fingers = [0,1,1,0,0]`): the probed pixel keeps
its value, and after the clear command it is zero. -/
theorem spec_C8_witness :
    ((processFrameHand (fun _ _ _ c _ => fun _ _ => c)
        ⟨fun _ _ => (9, 9, 9), false, 5, 6, (255, 0, 0)⟩ [0, 1, 1, 0, 0] 200 300).canvas 3 3
      = (9, 9, 9)) ∧
    ((clearCanvas ⟨fun _ _ => (9, 9, 9), false, 5, 6, (255, 0, 0)⟩).canvas 3 3
      = (0, 0, 0)) := by
  have h := (spec_C8.1 (fun _ _ _ c _ => fun _ _ => c)
      ⟨fun _ _ => (9, 9, 9), false, 5, 6, (255, 0, 0)⟩ [0, 1, 1, 0, 0] 200 300
      (by decide) (by decide)).1
  exact ⟨by rw [h], spec_C8.2 ⟨fun _ _ => (9, 9, 9), false, 5, 6, (255, 0, 0)⟩ 3 3⟩

end HandGesture
